import Mathlib

/-!
Shallow embedding of `src/main.py` of PolymarketBuilderBot.

The Python program is a polling trading bot.  We embed its pure decision
logic directly and model its I/O (HTTP fetches, order submission, the
ledger file on disk) by explicit environment records and a file-state
type.  Machine reals (Python floats) are modelled by `ℚ`: every constant
in the source (0.49, 0.9, 0.85, 0.75, 0.98, 30, 100, 180, 240) is exactly
representable, and only comparisons, division by 60 and subtraction of
such values occur.  Timestamps (`datetime` values) are modelled as `ℚ`
seconds since an arbitrary epoch; `end_time - now` is then rational
subtraction, exactly as `(end_time - now).total_seconds()`.

Conventions used throughout:
* a Python function that can raise an exception is embedded with result
  type `Except Unit _`; the `.error` value stands for "an exception
  propagates to the caller";
* a JSON value parsed by `json.load`/`json.loads` is a `JsonV` (arrays
  and objects are represented by the mutually inductive `JsonArr` and
  `JsonObj` so that equality is decidable; `toList` converts);
* the ledger file `placed_markets.json` is a `FileState`;
* Python `set`s are modelled as duplicate-free lists (`List.dedup` /
  `List.insert`); the claims below are stated up to ordering, which is
  the only behaviour this choice fixes.
-/

namespace PolymarketBot

mutual

/-- A parsed JSON value (`json.load` result). -/
inductive JsonV where
  | null : JsonV
  | bool (b : Bool) : JsonV
  | num (q : ℚ) : JsonV
  | str (s : String) : JsonV
  | arr (elems : JsonArr) : JsonV
  | obj (fields : JsonObj) : JsonV
deriving DecidableEq

/-- A parsed JSON array. -/
inductive JsonArr where
  | nil : JsonArr
  | cons (hd : JsonV) (tl : JsonArr) : JsonArr
deriving DecidableEq

/-- A parsed JSON object, as a sequence of key/value fields.  Parsed
objects have unique keys (the Python `json.load` keeps only the last
duplicate), so field order is immaterial for lookups. -/
inductive JsonObj where
  | nil : JsonObj
  | cons (key : String) (val : JsonV) (tl : JsonObj) : JsonObj
deriving DecidableEq

end

def JsonArr.toList : JsonArr → List JsonV
  | .nil => []
  | .cons x xs => x :: xs.toList

def JsonArr.ofList : List JsonV → JsonArr
  | [] => .nil
  | x :: xs => .cons x (JsonArr.ofList xs)

def JsonObj.toList : JsonObj → List (String × JsonV)
  | .nil => []
  | .cons k v xs => (k, v) :: xs.toList

/-- The observable state of the ledger file `placed_markets.json`:
missing, unreadable (an `OSError` on `open`/`read`), syntactically
invalid JSON (`json.load` raises), or readable with a parsed content. -/
inductive FileState where
  | absent : FileState
  | unreadable : FileState
  | invalidJson : FileState
  | content (j : JsonV) : FileState
deriving DecidableEq

/-- The Python `set(x)` on a JSON value: lists yield their elements,
strings yield their one-character substrings, dicts yield their keys;
`null`, booleans and numbers are not iterable, so `set(...)` raises
`TypeError` (`none` here). -/
def pySetElems : JsonV → Option (List JsonV)
  | .arr xs => some xs.toList
  | .str s => some (s.toList.map (fun c => JsonV.str (String.singleton c)))
  | .obj fields => some (fields.toList.map (fun p => JsonV.str p.1))
  | _ => none

/-- `load_placed_market_ids` (src/main.py:367-375): returns
`set(data.get("market_ids", []))` when the file exists and parses as a
dict; every exception path (missing file, read error, JSON error,
`.get` on a non-dict, `set(...)` of a non-iterable) yields the empty
set.  The resulting Python set is represented as a duplicate-free list. -/
def load_placed_market_ids (fs : FileState) : List JsonV :=
  match fs with
  | .content (.obj fields) =>
    match pySetElems ((fields.toList.lookup "market_ids").getD (.arr .nil)) with
    | some xs => xs.dedup
    | none => []
  | _ => []

/-- `save_placed_market_ids` (src/main.py:411-414): overwrites the file
with `{"market_ids": list(market_ids)}`. -/
def save_placed_market_ids (ids : List JsonV) : FileState :=
  .content (.obj (.cons "market_ids" (.arr (JsonArr.ofList ids)) .nil))

/-- The raw `market_ids` array stored in the ledger file (empty for any
other shape); used to state "at most one ledger entry per id". -/
def ledger_entries : FileState → List JsonV
  | .content (.obj fields) =>
    match fields.toList.lookup "market_ids" with
    | some (.arr xs) => xs.toList
    | _ => []
  | _ => []

/-- A well-formed persisted ledger: `{"market_ids": [..id strings..]}`. -/
def wellFormedLedger (ids : List String) : FileState :=
  .content (.obj (.cons "market_ids" (.arr (JsonArr.ofList (ids.map .str))) .nil))

/-!  ### The data model: events, series, markets  -/

/-- One event of a series, as consumed by the selectors: its `slug` and
its `endDate`.  The ISO-8601 `endDate` string is modelled already
parsed: `some t` is a timestamp (seconds, UTC), `none` stands for a
missing or unparseable `endDate` (where `datetime.fromisoformat` or the
key lookup raises inside the try block of the selector). -/
structure Event where
  slug : String
  endDate : Option ℚ
deriving DecidableEq

/-- A series object: the selectors only read its `events` list. -/
structure Series where
  events : List Event
deriving DecidableEq

/-- A market object, restricted to the fields the embedded code reads:
`id` (`market.get("id")`), `endDate` (parsed as for `Event`), and
`clobTokenIds` (the JSON-encoded token list, modelled already decoded;
`none` stands for a missing/falsy field). -/
structure Market where
  id : Option String
  endDate : Option ℚ
  clobTokenIds : Option (List String)
deriving DecidableEq

/-- Python `str(market.get("id"))`: `str(None)` is the (truthy!) string
`"None"`. -/
def pyStrOfOpt : Option String → String
  | none => "None"
  | some s => s

/-- `get_yes_no_tokens` (src/main.py:157-166): raises (`ValueError`, or
a `json.loads` error) when `clobTokenIds` is missing/falsy or decodes
to fewer than two tokens; otherwise returns the first two tokens
(extras are ignored). -/
def get_yes_no_tokens (m : Market) : Except Unit (String × String) :=
  match m.clobTokenIds with
  | none => .error ()
  | some tokens =>
    match tokens with
    | t0 :: t1 :: _ => .ok (t0, t1)
    | _ => .error ()

/-!  ### Entry decision engine (`should_enter_market`)  -/

/-- `safe_price` (src/main.py:180-184): `float(value)` with every
exception (missing key, `None`, unparseable) mapped to `0.0`.  A
missing/unparseable BUY price is modelled as `none`. -/
def safe_price (value : Option ℚ) : ℚ :=
  value.getD 0

/-- The dynamic-threshold block of `should_enter_market`
(src/main.py:216-221): sequential reassignment, last write wins. -/
def entry_threshold (base_threshold seconds_left : ℚ) : ℚ :=
  let threshold := base_threshold
  let threshold := if seconds_left < 180 then (85 : ℚ)/100 else threshold
  let threshold := if seconds_left < 100 then (75 : ℚ)/100 else threshold
  threshold

inductive Side where
  | yes : Side
  | no : Side
deriving DecidableEq

/-- The result of `should_enter_market`: `False`, or `(side, token)`. -/
inductive Decision where
  | noEntry : Decision
  | enter (side : Side) (token : String) : Decision
deriving DecidableEq

/-- `should_enter_market` (src/main.py:205-235).  `seconds_left` is
`(end_time - now).total_seconds()`; `yes_buy`/`no_buy` are the BUY
entries of the live-price snapshot for the two tokens (`none` =
missing).  The Python default `base_threshold=0.9` is passed explicitly
by every use in this file. -/
def should_enter_market (base_threshold seconds_left : ℚ)
    (yes_token no_token : String) (yes_buy no_buy : Option ℚ) : Decision :=
  let minutes_left := seconds_left / 60
  if minutes_left > 4 then .noEntry
  else if seconds_left < 30 then .noEntry
  else
    let threshold := entry_threshold base_threshold seconds_left
    let yes_price := safe_price yes_buy
    let no_price := safe_price no_buy
    if yes_price > 98/100 ∨ no_price > 98/100 then .noEntry
    else if yes_price ≥ threshold then .enter .yes yes_token
    else if no_price ≥ threshold then .enter .no no_token
    else .noEntry

/-!  ### Future-event selection (`get_future_event_from_series`)  -/

/-- The `(end_time, ev)` pairs of the events whose `endDate` parses and
is strictly in the future; events whose `endDate` is missing or fails
to parse are skipped by the `try`/`except`/`continue`. -/
def future_event_pairs (events : List Event) (now : ℚ) : List (ℚ × Event) :=
  events.filterMap (fun ev =>
    match ev.endDate with
    | none => none
    | some t => if now < t then some (t, ev) else none)

/-- Sort order used by `future_events.sort(key=lambda x: x[0])`. -/
def byEndDate (p q : ℚ × Event) : Prop := p.1 ≤ q.1

instance : DecidableRel byEndDate := fun p q => inferInstanceAs (Decidable (p.1 ≤ q.1))

instance : IsTotal (ℚ × Event) byEndDate := ⟨fun p q => le_total p.1 q.1⟩

instance : IsTrans (ℚ × Event) byEndDate := ⟨fun _ _ _ h h' => le_trans h h'⟩

/-- `get_future_event_from_series` (src/main.py:378-408): keep the
future events, sort ascending by `endDate` (the stable Python sort is
modelled by stable insertion sort; the claims do not depend on the
tie-break), and return the event at `future_index`, or `none` when
fewer than `future_index + 1` remain.  (The early `return None` of the source
on an empty `events` list coincides with the general path.) -/
def get_future_event_from_series (events : List Event) (now : ℚ)
    (future_index : ℕ) : Option Event :=
  let future_events := future_event_pairs events now
  let sorted := List.insertionSort byEndDate future_events
  (sorted[future_index]?).map Prod.snd

/-- `get_active_event_from_series` (src/main.py:240-264) is the same
algorithm fixed at index 0. -/
def get_active_event_from_series (events : List Event) (now : ℚ) : Option Event :=
  get_future_event_from_series events now 0

/-!  ### The seed phase (`place_orders_for_future_longer_timeframes`)

The phase performs network fetches and order submissions.  These are
modelled by an `Env` record giving the outcome of every external call:
`series_list` is the result of `get_crypto_series(slugs_longer)`,
`market_of slug` the result of `get_market_from_series(slug)` (`.error`
= the HTTP call raises, `.ok none` = a falsy response, `.ok (some m)` =
a market object), and `submit tok` the outcome of
`place_buy_order(polyclient, tok, ...)`.  The wall clock is frozen at
`Env.now` for one pass (the pass runs in milliseconds; nothing in the
claims depends on the clock advancing mid-pass).  -/

structure Env where
  series_list : Except Unit (List Series)
  market_of : String → Except Unit (Option Market)
  submit : String → Except Unit Unit
  now : ℚ

/-- One attempted `place_buy_order` call of the seed phase, tagged with
the id of the market it was placed for and whether the call succeeded
(`try`/`except` swallows a failure after logging it). -/
structure OrderAttempt where
  market_id : String
  token : String
  price : ℚ
  size : ℚ
  succeeded : Bool
deriving DecidableEq

/-- The body of the `for s in series_list` loop of
`place_orders_for_future_longer_timeframes` (src/main.py:432-481) for
one series: returns the order attempts made for it and the updated
in-memory `placed_ids` set, or `.error` when an uncaught exception
(market fetch, token extraction) escapes the loop.  The two
`place_buy_order` calls are each wrapped in `try`/`except`, so their
outcomes are recorded but never alter control flow. -/
def process_series (env : Env) (s : Series) (placed : List JsonV) :
    Except Unit (List OrderAttempt × List JsonV) :=
  match get_future_event_from_series s.events env.now 1 with
  | none => .ok ([], placed)
  | some active_event =>
    match env.market_of active_event.slug with
    | .error _ => .error ()
    | .ok none => .ok ([], placed)
    | .ok (some market) =>
      let market_id := pyStrOfOpt market.id
      if market_id = "" then .ok ([], placed)
      else if JsonV.str market_id ∈ placed then .ok ([], placed)
      else
        match get_yes_no_tokens market with
        | .error _ => .error ()
        | .ok (yes_token, no_token) =>
          let yes_ok := (env.submit yes_token).isOk
          let no_ok := (env.submit no_token).isOk
          .ok ([⟨market_id, yes_token, 49/100, 5, yes_ok⟩,
                ⟨market_id, no_token, 49/100, 5, no_ok⟩],
               placed.insert (JsonV.str market_id))

/-- The `for s in series_list` loop itself: attempts made, final
`placed_ids`, and whether an exception escaped (aborting the loop). -/
def seed_loop (env : Env) :
    List Series → List JsonV → List OrderAttempt × List JsonV × Bool
  | [], placed => ([], placed, false)
  | s :: rest, placed =>
    match process_series env s placed with
    | .error _ => ([], placed, true)
    | .ok (atts, placed') =>
      let r := seed_loop env rest placed'
      (atts ++ r.1, r.2.1, r.2.2)

/-- The outcome of one seed-phase pass: the order attempts in
submission order, the ledger file after the pass, and whether an
exception escaped the pass (to be caught by the master loop). -/
structure SeedResult where
  attempts : List OrderAttempt
  fileState : FileState
  aborted : Bool
deriving DecidableEq

/-- `place_orders_for_future_longer_timeframes` (src/main.py:417-484):
load the ledger, run the per-series loop, and save the ledger.  When an
exception escapes the loop (or the initial `get_crypto_series` call),
`save_placed_market_ids` is never reached and the file is unchanged. -/
def place_orders_for_future_longer_timeframes (env : Env) (fs : FileState) :
    SeedResult :=
  match env.series_list with
  | .error _ => ⟨[], fs, true⟩
  | .ok series_list =>
    let placed_ids := load_placed_market_ids fs
    let r := seed_loop env series_list placed_ids
    if r.2.2 then ⟨r.1, fs, true⟩
    else ⟨r.1, save_placed_market_ids r.2.1, false⟩

/-!  ### The master loop (`run_every_15_minutes`)

`main.py` defines `run_every_15_minutes` twice.  The first definition
(src/main.py:489-515) ends its cycle with
`if datetime.utcnow().minute % 15 == 0: redeem_all(...)`; the second
definition (src/main.py:1011-1034) is identical except that the
`redeem_all` block is absent.  Python executes `run_every_15_minutes()`
after both `def` statements, so the second definition shadows the first
and is the one that runs.  (The shadowed first definition calls
`redeem_all`, a name defined nowhere in the file.)  We model one
iteration of each loop body: the seed phase runs inside `try`/`except`
(already absorbed into `SeedResult.aborted`), the live-bot call is
commented out, and after the sleep the returned flag says whether
`redeem_all` is invoked, given the wall-clock minute after the sleep. -/

def run_every_15_minutes_cycle (env : Env) (fs : FileState)
    (_minute_after_sleep : ℕ) : SeedResult × Bool :=
  (place_orders_for_future_longer_timeframes env fs, false)

def run_every_15_minutes_cycle_shadowed (env : Env) (fs : FileState)
    (minute_after_sleep : ℕ) : SeedResult × Bool :=
  (place_orders_for_future_longer_timeframes env fs,
   minute_after_sleep % 15 == 0)

/-!  ### One market check of the live trading bot (`start_trading_bot`)  -/

/-- The live-price snapshot for a (yes, no) token pair, as returned by
`get_live_prices`: the optional BUY and SELL entries of each per-token
price dict.  A missing token entry (`prices.get(tok, {})`) and a
missing side entry (`.get("BUY")` / `.get("SELL", 0)`) both surface as
`none`. -/
structure QuoteSnapshot where
  yes_buy : Option ℚ
  yes_sell : Option ℚ
  no_buy : Option ℚ
  no_sell : Option ℚ
deriving DecidableEq

/-- What one iteration of the `for sid in series_ids` body of
`start_trading_bot` does with one market (src/main.py:308-360). -/
inductive TradingAction where
  | exit_loop : TradingAction
  | skip : TradingAction
  | submit (token : String) (price : ℚ) (succeeded : Bool) : TradingAction
  | aborted : TradingAction
deriving DecidableEq

/-- The per-market body of `start_trading_bot` (src/main.py:308-360),
given one quote snapshot (`should_enter_market` re-fetches prices; the
claims treat the two reads as one snapshot, i.e. quotes do not move
between the two calls).  Control flow: compute `seconds_left` from the
market `endDate` field (an unparseable date raises → `aborted`); under 30
seconds the whole bot loop returns (`exit_loop`); otherwise extract
tokens (raises → `aborted`), read the SELL sides with default `0`, run
the decision, and on `enter` submit one buy order for the chosen token
at the SELL price of the chosen side. -/
def trading_step (now : ℚ) (market : Market) (quotes : QuoteSnapshot)
    (submit : String → Except Unit Unit) : TradingAction :=
  match market.endDate with
  | none => .aborted
  | some end_time =>
    let seconds_left := end_time - now
    if seconds_left < 30 then .exit_loop
    else
      match get_yes_no_tokens market with
      | .error _ => .aborted
      | .ok (yes_token, no_token) =>
        let yes_sell := quotes.yes_sell.getD 0
        let no_sell := quotes.no_sell.getD 0
        match should_enter_market (9/10) seconds_left yes_token no_token
            quotes.yes_buy quotes.no_buy with
        | .noEntry => .skip
        | .enter side token =>
          let entry_price := if side = Side.yes then yes_sell else no_sell
          .submit token entry_price (submit token).isOk

/-- `env` with the order-submission outcomes replaced: used to state
that submission outcomes are irrelevant to the control
flow and ledger. -/
def Env.withSubmit (e : Env) (f : String → Except Unit Unit) : Env :=
  ⟨e.series_list, e.market_of, f, e.now⟩

/-!  Concrete environments used by witnesses and counterexamples.  -/

/-- A market with id `"m1"` and token pair `("ty", "tn")`. -/
def mW : Market := ⟨some "m1", some 300, some ["ty", "tn"]⟩

/-- One series with two future events (`now = 0`); the index-1 event
`"b"` resolves to market `mW`; the YES-side submission (`"ty"`) fails
and the NO-side (`"tn"`) succeeds. -/
def envW : Env :=
  ⟨.ok [⟨[⟨"a", some 100⟩, ⟨"b", some 200⟩]⟩],
   fun slug => if slug = "b" then .ok (some mW) else .ok none,
   fun tok => if tok = "ty" then .error () else .ok (),
   0⟩

/-- A market with id `"m2"` and token pair `("t2y", "t2n")`. -/
def mC2 : Market := ⟨some "m2", some 300, some ["t2y", "t2n"]⟩

/-- Two series; the market fetch of the first raises, the market of
the second is perfectly healthy and unplaced. -/
def envC2 : Env :=
  ⟨.ok [⟨[⟨"a1", some 100⟩, ⟨"b1", some 200⟩]⟩,
        ⟨[⟨"a2", some 100⟩, ⟨"b2", some 200⟩]⟩],
   fun slug =>
     if slug = "b1" then .error ()
     else if slug = "b2" then .ok (some mC2) else .ok none,
   fun _ => .ok (),
   0⟩

/-- A market expiring 120 s after `now = 0` with tokens `("ty", "tn")`. -/
def mC10 : Market := ⟨some "m", some 120, some ["ty", "tn"]⟩

/-- A quote snapshot whose YES side has BUY = 0.9 but *no* SELL entry. -/
def qC10 : QuoteSnapshot := ⟨some (9/10), none, some (1/100), some (1/2)⟩

/-!  ## Claims  -/

/-- **C3**: Time-dependent gating and threshold of the entry decision:
for every market and quote snapshot, the decision is no-entry whenever
`secondsLeft/60 > 4` or `secondsLeft < 30`; otherwise the entry
threshold is 0.90 for `secondsLeft` in (180, 240*60], 0.85 for
`secondsLeft` in (100, 180), and 0.75 for `secondsLeft` in (30, 100),
the value of the tighter band taking precedence because the reassignments
are evaluated in sequence (last write wins); `entry_threshold` is, by
definition of `should_enter_market`, exactly the threshold the
decision compares the BUY prices against. -/
theorem C3_time_gating_and_thresholds (seconds_left : ℚ)
    (yes_token no_token : String) (yes_buy no_buy : Option ℚ) :
    (seconds_left / 60 > 4 →
      should_enter_market (9/10) seconds_left yes_token no_token yes_buy no_buy
        = .noEntry) ∧
    (seconds_left < 30 →
      should_enter_market (9/10) seconds_left yes_token no_token yes_buy no_buy
        = .noEntry) ∧
    (180 < seconds_left → seconds_left ≤ 240 * 60 →
      entry_threshold (9/10) seconds_left = 9/10) ∧
    (100 < seconds_left → seconds_left < 180 →
      entry_threshold (9/10) seconds_left = 85/100) ∧
    (30 < seconds_left → seconds_left < 100 →
      entry_threshold (9/10) seconds_left = 75/100) := by
  refine ⟨fun h => ?_, fun h => ?_, fun h h' => ?_, fun h h' => ?_, fun h h' => ?_⟩
  · simp only [should_enter_market]
    rw [if_pos h]
  · have hne : ¬ seconds_left / 60 > 4 := by
      rw [gt_iff_lt, lt_div_iff₀ (by norm_num : (0:ℚ) < 60)]
      intro h'
      linarith
    simp only [should_enter_market]
    rw [if_neg hne, if_pos h]
  · simp only [entry_threshold]
    rw [if_neg (by linarith : ¬ seconds_left < 180),
        if_neg (by linarith : ¬ seconds_left < 100)]
  · simp only [entry_threshold]
    rw [if_pos h', if_neg (by linarith : ¬ seconds_left < 100)]
  · simp only [entry_threshold]
    rw [if_pos h']

/-- Witness for C3: each band evaluated at a concrete instant
(600 s = too early, 15 s = too late, 200 s, 150 s, 50 s). -/
theorem C3_time_gating_and_thresholds_witness :
    should_enter_market (9/10) 600 "yt" "nt" (some (1/2)) (some (1/2)) = .noEntry ∧
    should_enter_market (9/10) 15 "yt" "nt" (some (1/2)) (some (1/2)) = .noEntry ∧
    entry_threshold (9/10) 200 = 9/10 ∧
    entry_threshold (9/10) 150 = 85/100 ∧
    entry_threshold (9/10) 50 = 75/100 :=
  ⟨(C3_time_gating_and_thresholds 600 "yt" "nt" (some (1/2)) (some (1/2))).1
      (by norm_num),
   (C3_time_gating_and_thresholds 15 "yt" "nt" (some (1/2)) (some (1/2))).2.1
      (by norm_num),
   (C3_time_gating_and_thresholds 200 "yt" "nt" none none).2.2.1
      (by norm_num) (by norm_num),
   (C3_time_gating_and_thresholds 150 "yt" "nt" none none).2.2.2.1
      (by norm_num) (by norm_num),
   (C3_time_gating_and_thresholds 50 "yt" "nt" none none).2.2.2.2
      (by norm_num) (by norm_num)⟩

/-- **C5**: Extreme-price guard: for every market and quote snapshot
inside the tradable time window, if the BUY price of either side is strictly
greater than 0.98 the decision is no-entry, even when one of the BUY
price also meets or exceeds the active threshold (no hypothesis below
excludes that). -/
theorem C5_extreme_price_guard (seconds_left : ℚ)
    (yes_token no_token : String) (yes_buy no_buy : Option ℚ)
    (hearly : ¬ seconds_left / 60 > 4) (hlate : ¬ seconds_left < 30)
    (hx : safe_price yes_buy > 98/100 ∨ safe_price no_buy > 98/100) :
    should_enter_market (9/10) seconds_left yes_token no_token yes_buy no_buy
      = .noEntry := by
  simp only [should_enter_market]
  rw [if_neg hearly, if_neg hlate, if_pos hx]

/-- Witness for C5: 150 s left (threshold 0.85), YES BUY = 0.99 — which
meets the threshold *and* exceeds 0.98 — still no-entry. -/
theorem C5_extreme_price_guard_witness :
    should_enter_market (9/10) 150 "yt" "nt" (some (99/100)) (some (1/100))
      = .noEntry :=
  C5_extreme_price_guard 150 "yt" "nt" (some (99/100)) (some (1/100))
    (by norm_num) (by norm_num)
    (Or.inl (by norm_num [safe_price]))

/-- Membership in the future-event pair list: exactly the events of the
series whose `endDate` parsed and lies strictly after `now`. -/
theorem mem_future_event_pairs {events : List Event} {now : ℚ} {p : ℚ × Event} :
    p ∈ future_event_pairs events now ↔
      p.2 ∈ events ∧ p.2.endDate = some p.1 ∧ now < p.1 := by
  unfold future_event_pairs
  rw [List.mem_filterMap]
  constructor
  · rintro ⟨a, ha, hf⟩
    cases hEnd : a.endDate with
    | none => rw [hEnd] at hf; cases hf
    | some t =>
      rw [hEnd] at hf
      simp only at hf
      by_cases hlt : now < t
      · rw [if_pos hlt] at hf
        obtain rfl := Option.some_injective _ hf
        exact ⟨ha, hEnd, hlt⟩
      · rw [if_neg hlt] at hf
        cases hf
  · rintro ⟨hmem, hEnd, hlt⟩
    refine ⟨p.2, hmem, ?_⟩
    rw [hEnd]
    simp only
    rw [if_pos hlt]

/-- **C4**: Future-event selection: for every series and index `i`,
`get_future_event_from_series` (1) only returns events whose `endDate`
parsed and is strictly after `now` (stated as
`now < ev.endDate.getD now`, which forces `endDate = some t` with
`now < t`); (2) returns `none` exactly when fewer than `i+1` future
events exist; (3) at index 0 returns an event whose `endDate` is
minimal among all future events of the series; and (4) skips an event
with a missing/unparseable `endDate` instead of aborting selection. -/
theorem C4_future_event_selection (events : List Event) (now : ℚ) (i : ℕ) :
    (∀ ev, get_future_event_from_series events now i = some ev →
      now < ev.endDate.getD now) ∧
    (get_future_event_from_series events now i = none ↔
      (future_event_pairs events now).length ≤ i) ∧
    (∀ ev, get_future_event_from_series events now 0 = some ev →
      ∀ ev' t', ev' ∈ events → ev'.endDate = some t' → now < t' →
        ev.endDate.getD now ≤ t') ∧
    (∀ pre post bad, bad.endDate = none →
      get_future_event_from_series (pre ++ bad :: post) now i =
        get_future_event_from_series (pre ++ post) now i) := by
  refine ⟨?_, ?_, ?_, ?_⟩
  · intro ev hsel
    unfold get_future_event_from_series at hsel
    obtain ⟨p, hp, rfl⟩ := Option.map_eq_some'.mp hsel
    have hmem : p ∈ List.insertionSort byEndDate (future_event_pairs events now) :=
      List.getElem?_mem hp
    rw [List.mem_insertionSort] at hmem
    obtain ⟨-, hEnd, hlt⟩ := mem_future_event_pairs.mp hmem
    rw [hEnd, Option.getD_some]
    exact hlt
  · unfold get_future_event_from_series
    rw [Option.map_eq_none', List.getElem?_eq_none_iff,
      ((List.perm_insertionSort byEndDate (future_event_pairs events now)).length_eq)]
  · intro ev hsel ev' t' hmem' hEnd' hlt'
    unfold get_future_event_from_series at hsel
    obtain ⟨p, hp, rfl⟩ := Option.map_eq_some'.mp hsel
    have hpmem : p ∈ List.insertionSort byEndDate (future_event_pairs events now) :=
      List.getElem?_mem hp
    obtain ⟨-, hEnd, -⟩ :=
      mem_future_event_pairs.mp ((List.mem_insertionSort _).mp hpmem)
    rw [hEnd, Option.getD_some]
    have hsorted : List.Sorted byEndDate
        (List.insertionSort byEndDate (future_event_pairs events now)) :=
      List.sorted_insertionSort byEndDate (future_event_pairs events now)
    have hmem2 : (t', ev') ∈ List.insertionSort byEndDate
        (future_event_pairs events now) := by
      rw [List.mem_insertionSort]
      exact mem_future_event_pairs.mpr ⟨hmem', hEnd', hlt'⟩
    cases hsort :
        List.insertionSort byEndDate (future_event_pairs events now) with
    | nil => rw [hsort] at hp; cases hp
    | cons q tl =>
      rw [hsort] at hp
      have hq : q = p := by
        obtain ⟨w, hw⟩ := List.getElem?_eq_some.mp hp
        simpa using hw
      subst hq
      rw [hsort] at hmem2 hsorted
      rcases List.mem_cons.mp hmem2 with h | h
      · rw [← h]
      · exact (List.pairwise_cons.mp hsorted).1 _ h
  · intro pre post bad hbad
    have hpairs : future_event_pairs (pre ++ bad :: post) now =
        future_event_pairs (pre ++ post) now := by
      unfold future_event_pairs
      rw [List.filterMap_append, List.filterMap_append, List.filterMap_cons]
      rw [hbad]
    unfold get_future_event_from_series
    rw [hpairs]

/-- Witness for C4, on the series
`[("e1", 100), ("bad", –), ("e2", 50), ("past", 5)]` at `now = 10`:
index 0 selects `e2` (the minimal future event, with `10 < 50 ≤ 100`),
index 2 is out of range, and dropping the unparseable event is a
no-op. -/
theorem C4_future_event_selection_witness :
    (10 : ℚ) < ((Event.mk "e2" (some 50)).endDate.getD 10) ∧
    get_future_event_from_series
      [⟨"e1", some 100⟩, ⟨"bad", none⟩, ⟨"e2", some 50⟩, ⟨"past", some 5⟩]
      10 2 = none ∧
    (Event.mk "e2" (some 50)).endDate.getD 10 ≤ 100 ∧
    get_future_event_from_series
      [⟨"e1", some 100⟩, ⟨"bad", none⟩, ⟨"e2", some 50⟩, ⟨"past", some 5⟩]
      10 0 =
      get_future_event_from_series
        [⟨"e1", some 100⟩, ⟨"e2", some 50⟩, ⟨"past", some 5⟩] 10 0 := by
  have hsel : get_future_event_from_series
      [⟨"e1", some 100⟩, ⟨"bad", none⟩, ⟨"e2", some 50⟩, ⟨"past", some 5⟩]
      10 0 = some ⟨"e2", some 50⟩ := by
    norm_num [get_future_event_from_series, future_event_pairs, List.filterMap,
      List.insertionSort, List.orderedInsert, byEndDate]
  refine ⟨(C4_future_event_selection
      [⟨"e1", some 100⟩, ⟨"bad", none⟩, ⟨"e2", some 50⟩, ⟨"past", some 5⟩]
      10 0).1 _ hsel,
    (C4_future_event_selection
      [⟨"e1", some 100⟩, ⟨"bad", none⟩, ⟨"e2", some 50⟩, ⟨"past", some 5⟩]
      10 2).2.1.mpr ?_,
    (C4_future_event_selection
      [⟨"e1", some 100⟩, ⟨"bad", none⟩, ⟨"e2", some 50⟩, ⟨"past", some 5⟩]
      10 0).2.2.1 _ hsel ⟨"e1", some 100⟩ 100 (by simp) rfl (by norm_num),
    (C4_future_event_selection
      [⟨"e1", some 100⟩, ⟨"bad", none⟩, ⟨"e2", some 50⟩, ⟨"past", some 5⟩]
      10 0).2.2.2 [⟨"e1", some 100⟩] [⟨"e2", some 50⟩, ⟨"past", some 5⟩]
      ⟨"bad", none⟩ rfl⟩
  norm_num [future_event_pairs, List.filterMap]

theorem toList_ofList (l : List JsonV) : (JsonArr.ofList l).toList = l := by
  induction l with
  | nil => rfl
  | cons x xs ih => simp [JsonArr.ofList, JsonArr.toList, ih]

/-- `load` after `save` recovers the saved ids up to set semantics. -/
theorem load_save_eq_dedup (ids : List JsonV) :
    load_placed_market_ids (save_placed_market_ids ids) = ids.dedup := by
  simp [load_placed_market_ids, save_placed_market_ids, pySetElems,
    JsonObj.toList, List.lookup, toList_ofList]

theorem ledger_entries_save (ids : List JsonV) :
    ledger_entries (save_placed_market_ids ids) = ids := by
  simp [ledger_entries, save_placed_market_ids, JsonObj.toList, List.lookup,
    toList_ofList]

theorem load_wellFormedLedger (ids : List String) :
    load_placed_market_ids (wellFormedLedger ids) = (ids.map .str).dedup := by
  simp [load_placed_market_ids, wellFormedLedger, pySetElems, JsonObj.toList,
    List.lookup, toList_ofList]

theorem ledger_entries_wellFormedLedger (ids : List String) :
    ledger_entries (wellFormedLedger ids) = ids.map .str := by
  simp [ledger_entries, wellFormedLedger, JsonObj.toList, List.lookup,
    toList_ofList]

/-- **C7 counterexample**: the claim says `load()` returns the empty
set for *every* file containing JSON of an unexpected shape.  The file
`{"market_ids": "ab"}` has an unexpected shape (the expected
`market_ids` must be a list of id strings), yet
`set(data.get("market_ids", []))` iterates the string and returns the
non-empty set `{"a", "b"}`. -/
theorem C7_ledger_load_counterexample :
    load_placed_market_ids
        (.content (.obj (.cons "market_ids" (.str "ab") .nil)))
      = [.str "a", .str "b"] ∧
    load_placed_market_ids
        (.content (.obj (.cons "market_ids" (.str "ab") .nil)))
      ≠ [] := by
  constructor
  · decide
  · decide

/-- **C7 (amended)**: `load_placed_market_ids` never raises (it is a
total function of the file state: every exception path of the source is
absorbed into a returned value), and returns the empty set when the
ledger file is absent, unreadable, or invalid JSON, when the top-level
JSON value is not an object, when the object has no `market_ids` key,
and when the `market_ids` value is not iterable (null/boolean/number —
where the Python `set(...)` raises `TypeError`, caught by the bare
`except`).  When `market_ids` is present and iterable, however, `load`
returns the set of its elements — which is non-empty for a non-empty
iterable of any unexpected element type. -/
theorem C7_ledger_load_resilience_amended :
    load_placed_market_ids .absent = [] ∧
    load_placed_market_ids .unreadable = [] ∧
    load_placed_market_ids .invalidJson = [] ∧
    load_placed_market_ids (.content .null) = [] ∧
    (∀ b, load_placed_market_ids (.content (.bool b)) = []) ∧
    (∀ q, load_placed_market_ids (.content (.num q)) = []) ∧
    (∀ s, load_placed_market_ids (.content (.str s)) = []) ∧
    (∀ xs, load_placed_market_ids (.content (.arr xs)) = []) ∧
    (∀ fields, fields.toList.lookup "market_ids" = none →
      load_placed_market_ids (.content (.obj fields)) = []) ∧
    (∀ fields v, fields.toList.lookup "market_ids" = some v →
      pySetElems v = none →
      load_placed_market_ids (.content (.obj fields)) = []) ∧
    (∀ fields v xs, fields.toList.lookup "market_ids" = some v →
      pySetElems v = some xs →
      load_placed_market_ids (.content (.obj fields)) = xs.dedup) := by
  refine ⟨rfl, rfl, rfl, rfl, fun b => rfl, fun q => rfl, fun s => rfl,
    fun xs => rfl, fun fields h => ?_, fun fields v h h2 => ?_,
    fun fields v xs h h2 => ?_⟩
  · simp [load_placed_market_ids, h, pySetElems, JsonArr.toList]
  · simp [load_placed_market_ids, h, h2]
  · simp [load_placed_market_ids, h, h2]

/-- Witness for C7 (amended): a file without the key, a file whose
`market_ids` is a number, and a file whose `market_ids` is a proper
list. -/
theorem C7_ledger_load_resilience_amended_witness :
    load_placed_market_ids (.content (.obj (.cons "other" .null .nil))) = [] ∧
    load_placed_market_ids
      (.content (.obj (.cons "market_ids" (.num 3) .nil))) = [] ∧
    load_placed_market_ids
      (.content (.obj (.cons "market_ids"
        (.arr (.cons (.str "a") .nil)) .nil))) = [.str "a"] :=
  ⟨C7_ledger_load_resilience_amended.2.2.2.2.2.2.2.2.1
      (.cons "other" .null .nil) rfl,
   C7_ledger_load_resilience_amended.2.2.2.2.2.2.2.2.2.1
      (.cons "market_ids" (.num 3) .nil) (.num 3) rfl rfl,
   C7_ledger_load_resilience_amended.2.2.2.2.2.2.2.2.2.2
      (.cons "market_ids" (.arr (.cons (.str "a") .nil)) .nil)
      (.arr (.cons (.str "a") .nil)) [.str "a"] rfl rfl⟩

/-- **C8**: Ledger round-trip: for every well-formed persisted ledger,
`save(load())` leaves the persisted *set* of market ids unchanged
(stated as equality of membership in the raw persisted array), and for
every finite set `s` of id strings (a duplicate-free list),
`load(save(s))` yields exactly `s`. -/
theorem C8_ledger_round_trip (ids : List String) :
    (∀ x, x ∈ ledger_entries (save_placed_market_ids
        (load_placed_market_ids (wellFormedLedger ids))) ↔
      x ∈ ledger_entries (wellFormedLedger ids)) ∧
    (ids.Nodup →
      load_placed_market_ids (save_placed_market_ids (ids.map .str))
        = ids.map .str) := by
  constructor
  · intro x
    rw [ledger_entries_save, load_wellFormedLedger,
      ledger_entries_wellFormedLedger, List.mem_dedup]
  · intro h
    rw [load_save_eq_dedup, List.dedup_eq_self]
    exact h.map (fun a b hab => JsonV.str.injEq a b ▸ hab)

/-- Witness for C8 at the two-element ledger `["a", "b"]`. -/
theorem C8_ledger_round_trip_witness :
    (JsonV.str "a" ∈ ledger_entries (save_placed_market_ids
        (load_placed_market_ids (wellFormedLedger ["a", "b"]))) ↔
      JsonV.str "a" ∈ ledger_entries (wellFormedLedger ["a", "b"])) ∧
    load_placed_market_ids
        (save_placed_market_ids (["a", "b"].map .str))
      = ["a", "b"].map .str :=
  ⟨(C8_ledger_round_trip ["a", "b"]).1 (.str "a"),
   (C8_ledger_round_trip ["a", "b"]).2 (by decide)⟩

/-- When a series is processed without an escaping exception, the
in-memory `placed_ids` set only grows, every order attempted belongs to
a market id that was not yet in the set, and duplicate-freeness is
preserved. -/
theorem process_series_ok {env : Env} {s : Series} {placed : List JsonV}
    {r : List OrderAttempt × List JsonV}
    (h : process_series env s placed = .ok r) :
    placed ⊆ r.2 ∧ (∀ a ∈ r.1, JsonV.str a.market_id ∉ placed) ∧
      (placed.Nodup → r.2.Nodup) := by
  unfold process_series at h
  dsimp only at h
  repeat' split at h
  all_goals cases h
  all_goals try exact ⟨List.Subset.refl _, by simp, fun hn => hn⟩
  refine ⟨List.subset_insert _ _, ?_, fun hn => hn.insert⟩
  intro a ha
  simp only [List.mem_cons, List.not_mem_nil, or_false] at ha
  rcases ha with rfl | rfl
  all_goals assumption

/-- The properties of `process_series_ok`, propagated through the whole
`for s in series_list` loop. -/
theorem seed_loop_spec (env : Env) :
    ∀ (ss : List Series) (placed : List JsonV),
      placed ⊆ (seed_loop env ss placed).2.1 ∧
      (∀ a ∈ (seed_loop env ss placed).1,
        JsonV.str a.market_id ∉ placed) ∧
      (placed.Nodup → (seed_loop env ss placed).2.1.Nodup) := by
  intro ss
  induction ss with
  | nil =>
    intro placed
    exact ⟨List.Subset.refl _, by simp [seed_loop], fun hn => hn⟩
  | cons s rest ih =>
    intro placed
    cases hps : process_series env s placed with
    | error e =>
      simp only [seed_loop, hps]
      exact ⟨List.Subset.refl _, by simp, fun hn => hn⟩
    | ok r =>
      obtain ⟨hsub, hfresh, hnod⟩ := process_series_ok hps
      obtain ⟨hsub2, hfresh2, hnod2⟩ := ih r.2
      simp only [seed_loop, hps]
      refine ⟨fun x hx => hsub2 (hsub hx), ?_, fun hn => hnod2 (hnod hn)⟩
      intro a ha
      rcases List.mem_append.mp ha with ha | ha
      · exact hfresh a ha
      · exact fun hmem => hfresh2 a ha (hsub hmem)

/-- The set loaded from any file state is duplicate-free. -/
theorem load_placed_market_ids_nodup (fs : FileState) :
    (load_placed_market_ids fs).Nodup := by
  unfold load_placed_market_ids
  split
  · split
    · exact List.nodup_dedup _
    · exact List.nodup_nil
  · exact List.nodup_nil

/-- Pass-level facts about the seed phase: an aborted pass leaves the
ledger file untouched; a completed pass persists a duplicate-free id
array; and no order is ever attempted for an id already in the set
loaded at the start of the pass. -/
theorem seed_pass_spec (env : Env) (fs : FileState) :
    ((place_orders_for_future_longer_timeframes env fs).aborted = true →
      (place_orders_for_future_longer_timeframes env fs).fileState = fs) ∧
    ((place_orders_for_future_longer_timeframes env fs).aborted = false →
      (ledger_entries
        (place_orders_for_future_longer_timeframes env fs).fileState).Nodup) ∧
    (∀ a ∈ (place_orders_for_future_longer_timeframes env fs).attempts,
      JsonV.str a.market_id ∉ load_placed_market_ids fs) := by
  unfold place_orders_for_future_longer_timeframes
  cases hsl : env.series_list with
  | error e => exact ⟨fun _ => rfl, by simp, by simp⟩
  | ok ss =>
    obtain ⟨hsub, hfresh, hnod⟩ := seed_loop_spec env ss (load_placed_market_ids fs)
    simp only
    split
    · exact ⟨fun _ => rfl, by simp, hfresh⟩
    · refine ⟨by simp, fun _ => ?_, hfresh⟩
      rw [ledger_entries_save]
      exact hnod (load_placed_market_ids_nodup fs)

/-- Evaluation of one full seed pass in the environment `envW`,
starting from a ledger containing only `"x"`: the pass attempts both
sides of market `"m1"` (YES fails, NO succeeds), marks `"m1"`, and
persists `{"m1", "x"}`. -/
theorem envW_run1 :
    place_orders_for_future_longer_timeframes envW (wellFormedLedger ["x"]) =
      ⟨[⟨"m1", "ty", 49/100, 5, false⟩, ⟨"m1", "tn", 49/100, 5, true⟩],
       save_placed_market_ids [.str "m1", .str "x"], false⟩ := by
  simp +decide [place_orders_for_future_longer_timeframes, envW, seed_loop,
    process_series, get_future_event_from_series, future_event_pairs, byEndDate,
    List.insertionSort, List.orderedInsert, get_yes_no_tokens, mW, pyStrOfOpt,
    List.insert, List.filterMap, load_placed_market_ids, wellFormedLedger,
    pySetElems, JsonObj.toList, List.lookup, toList_ofList, JsonArr.toList,
    JsonArr.ofList]

/-- **C1**: Seed-phase idempotency: (1) for every market id already in
the ledger set loaded at the start of the seed phase, the phase submits
no order for that market (hence also adds no new entry for it — the set
only receives ids that were absent); (2) running the phase twice in
succession over the same environment yields at most one ledger entry
per market id (whenever at least one of the two passes persisted at
all); (3) the second pass resubmits zero orders for any id marked by
the first (i.e. any id in the ledger the first pass left behind). -/
theorem C1_seed_phase_idempotency (env : Env) (fs : FileState) (id : String) :
    (JsonV.str id ∈ load_placed_market_ids fs →
      ((place_orders_for_future_longer_timeframes env fs).attempts.all
        (fun a => a.market_id != id)) = true) ∧
    ((place_orders_for_future_longer_timeframes env fs).aborted = false ∨
        (place_orders_for_future_longer_timeframes env
          (place_orders_for_future_longer_timeframes env fs).fileState).aborted
          = false →
      (ledger_entries
        (place_orders_for_future_longer_timeframes env
          (place_orders_for_future_longer_timeframes env fs).fileState).fileState).Nodup) ∧
    (JsonV.str id ∈ load_placed_market_ids
        (place_orders_for_future_longer_timeframes env fs).fileState →
      ((place_orders_for_future_longer_timeframes env
        (place_orders_for_future_longer_timeframes env fs).fileState).attempts.all
        (fun a => a.market_id != id)) = true) := by
  obtain ⟨hab1, hnod1, hfresh1⟩ := seed_pass_spec env fs
  obtain ⟨hab2, hnod2, hfresh2⟩ :=
    seed_pass_spec env (place_orders_for_future_longer_timeframes env fs).fileState
  refine ⟨?_, ?_, ?_⟩
  · intro hmem
    rw [List.all_eq_true]
    intro a ha
    rw [bne_iff_ne]
    intro hEq
    exact hfresh1 a ha (hEq ▸ hmem)
  · intro hor
    cases h2 : (place_orders_for_future_longer_timeframes env
        (place_orders_for_future_longer_timeframes env fs).fileState).aborted with
    | false => exact hnod2 h2
    | true =>
      rw [hab2 h2]
      rcases hor with h1 | h1
      · exact hnod1 h1
      · rw [h2] at h1
        cases h1
  · intro hmem
    rw [List.all_eq_true]
    intro a ha
    rw [bne_iff_ne]
    intro hEq
    exact hfresh2 a ha (hEq ▸ hmem)

/-- Witness for C1 in `envW` starting from the ledger `{"x"}`: the
first pass never orders for the pre-marked id `"x"`; the ledger after
two passes is duplicate-free; the second pass resubmits nothing for
`"m1"`, the id the first pass marked. -/
theorem C1_seed_phase_idempotency_witness :
    ((place_orders_for_future_longer_timeframes envW
        (wellFormedLedger ["x"])).attempts.all
      (fun a => a.market_id != "x")) = true ∧
    (ledger_entries
      (place_orders_for_future_longer_timeframes envW
        (place_orders_for_future_longer_timeframes envW
          (wellFormedLedger ["x"])).fileState).fileState).Nodup ∧
    ((place_orders_for_future_longer_timeframes envW
        (place_orders_for_future_longer_timeframes envW
          (wellFormedLedger ["x"])).fileState).attempts.all
      (fun a => a.market_id != "m1")) = true :=
  ⟨(C1_seed_phase_idempotency envW (wellFormedLedger ["x"]) "x").1 (by decide),
   (C1_seed_phase_idempotency envW (wellFormedLedger ["x"]) "x").2.1
     (Or.inl (by rw [envW_run1])),
   (C1_seed_phase_idempotency envW (wellFormedLedger ["x"]) "m1").2.2
     (by rw [envW_run1]; decide)⟩

/-- **C6**: Seed order error recovery and marking: for every processed
market of the seed phase, both the YES and the NO submission are
attempted whatever the submission outcomes are (`env.submit` below is
arbitrary — in particular the NO order is still attempted when the YES
submission raises), and the market id is added to the in-memory ledger
set regardless of either outcome; and once the id is in the set of a
later pass, that pass makes no attempt for the market at all (so a
failed seed order is never retried once marked). -/
theorem C6_seed_error_recovery_and_marking (env : Env) (s : Series)
    (placed : List JsonV) (ev : Event) (m : Market)
    (yes_token no_token : String)
    (hev : get_future_event_from_series s.events env.now 1 = some ev)
    (hmk : env.market_of ev.slug = .ok (some m))
    (hid : ¬ pyStrOfOpt m.id = "")
    (hnew : JsonV.str (pyStrOfOpt m.id) ∉ placed)
    (htok : get_yes_no_tokens m = .ok (yes_token, no_token)) :
    process_series env s placed =
      .ok ([⟨pyStrOfOpt m.id, yes_token, 49/100, 5,
              (env.submit yes_token).isOk⟩,
            ⟨pyStrOfOpt m.id, no_token, 49/100, 5,
              (env.submit no_token).isOk⟩],
           placed.insert (JsonV.str (pyStrOfOpt m.id))) ∧
    (∀ placed2, JsonV.str (pyStrOfOpt m.id) ∈ placed2 →
      process_series env s placed2 = .ok ([], placed2)) := by
  constructor
  · unfold process_series
    rw [hev]
    dsimp only
    rw [hmk]
    dsimp only
    rw [if_neg hid, if_neg hnew, htok]
  · intro placed2 h2
    unfold process_series
    rw [hev]
    dsimp only
    rw [hmk]
    dsimp only
    rw [if_neg hid, if_pos h2]

/-- Witness for C6 in `envW`, whose YES-side submission fails: the NO
order is still attempted (`succeeded := true` for `"tn"`), the id
`"m1"` is added, and with `"m1"` marked the market is skipped. -/
theorem C6_seed_error_recovery_and_marking_witness :
    process_series envW ⟨[⟨"a", some 100⟩, ⟨"b", some 200⟩]⟩ [] =
      .ok ([⟨"m1", "ty", 49/100, 5, false⟩, ⟨"m1", "tn", 49/100, 5, true⟩],
           [JsonV.str "m1"]) ∧
    process_series envW ⟨[⟨"a", some 100⟩, ⟨"b", some 200⟩]⟩
        [JsonV.str "m1"] =
      .ok ([], [JsonV.str "m1"]) :=
  ⟨(C6_seed_error_recovery_and_marking envW ⟨[⟨"a", some 100⟩, ⟨"b", some 200⟩]⟩
      [] ⟨"b", some 200⟩ mW "ty" "tn" (by decide) rfl (by decide) (by decide)
      rfl).1,
   (C6_seed_error_recovery_and_marking envW ⟨[⟨"a", some 100⟩, ⟨"b", some 200⟩]⟩
      [] ⟨"b", some 200⟩ mW "ty" "tn" (by decide) rfl (by decide) (by decide)
      rfl).2 [JsonV.str "m1"] (by decide)⟩

/-- Submission outcomes can only influence the `succeeded` flags of the
recorded attempts: the error/skip behaviour and the resulting
`placed_ids` set of one series are unchanged under any replacement of
the submission oracle. -/
theorem process_series_withSubmit_snd (env : Env)
    (f : String → Except Unit Unit) (s : Series) (placed : List JsonV) :
    (process_series (env.withSubmit f) s placed).map Prod.snd =
      (process_series env s placed).map Prod.snd := by
  unfold process_series
  simp only [Env.withSubmit]
  repeat' split
  all_goals rfl

/-- `seed_loop` under a replaced submission oracle: same final
`placed_ids` and same abort flag. -/
theorem seed_loop_withSubmit (env : Env) (f : String → Except Unit Unit) :
    ∀ (ss : List Series) (placed : List JsonV),
      (seed_loop (env.withSubmit f) ss placed).2 =
        (seed_loop env ss placed).2 := by
  intro ss
  induction ss with
  | nil => intro placed; rfl
  | cons s rest ih =>
    intro placed
    have hsnd := process_series_withSubmit_snd env f s placed
    cases hps : process_series env s placed with
    | error e =>
      rw [hps] at hsnd
      cases hps2 : process_series (env.withSubmit f) s placed with
      | error e2 => simp only [seed_loop, hps, hps2]
      | ok r2 => rw [hps2] at hsnd; simp [Except.map] at hsnd
    | ok r =>
      rw [hps] at hsnd
      cases hps2 : process_series (env.withSubmit f) s placed with
      | error e2 => rw [hps2] at hsnd; simp [Except.map] at hsnd
      | ok r2 =>
        rw [hps2] at hsnd
        simp only [Except.map, Except.ok.injEq] at hsnd
        simp only [seed_loop, hps, hps2, hsnd]
        exact ih r.2

/-- The whole seed phase under a replaced submission oracle: same abort
flag and same resulting ledger file. -/
theorem seed_pass_withSubmit (env : Env) (fs : FileState)
    (f : String → Except Unit Unit) :
    (place_orders_for_future_longer_timeframes (env.withSubmit f) fs).aborted =
      (place_orders_for_future_longer_timeframes env fs).aborted ∧
    (place_orders_for_future_longer_timeframes (env.withSubmit f) fs).fileState =
      (place_orders_for_future_longer_timeframes env fs).fileState := by
  unfold place_orders_for_future_longer_timeframes
  cases hsl : env.series_list with
  | error e =>
    have hsl' : (env.withSubmit f).series_list = .error e := hsl
    rw [hsl']
    exact ⟨rfl, rfl⟩
  | ok ss =>
    have hsl' : (env.withSubmit f).series_list = .ok ss := hsl
    rw [hsl']
    dsimp only
    rw [seed_loop_withSubmit env f ss (load_placed_market_ids fs)]
    split
    · exact ⟨rfl, rfl⟩
    · exact ⟨rfl, rfl⟩

/-- When every market fetch and every token extraction succeeds,
processing a series never raises. -/
theorem process_series_no_error (env : Env) (s : Series) (placed : List JsonV)
    (hm : ∀ slug, env.market_of slug ≠ .error ())
    (ht : ∀ slug m, env.market_of slug = .ok (some m) →
      get_yes_no_tokens m ≠ .error ()) :
    process_series env s placed ≠ .error () := by
  intro h
  unfold process_series at h
  dsimp only at h
  repeat' split at h
  all_goals try cases h
  · exact hm _ (by assumption)
  · exact ht _ _ (by assumption) (by assumption)

/-- Under the same hypotheses the whole loop never aborts. -/
theorem seed_loop_no_abort (env : Env)
    (hm : ∀ slug, env.market_of slug ≠ .error ())
    (ht : ∀ slug m, env.market_of slug = .ok (some m) →
      get_yes_no_tokens m ≠ .error ()) :
    ∀ (ss : List Series) (placed : List JsonV),
      (seed_loop env ss placed).2.2 = false := by
  intro ss
  induction ss with
  | nil => intro placed; rfl
  | cons s rest ih =>
    intro placed
    cases hps : process_series env s placed with
    | error e => exact absurd hps (process_series_no_error env s placed hm ht)
    | ok r =>
      simp only [seed_loop, hps]
      exact ih r.2

/-- **C2 counterexample**: in `envC2` the market fetch of the first series
raises; contrary to the claim, the exception is *not* caught inside the
pass: the pass aborts with no attempts at all, the perfectly healthy
second series is not processed (processed alone, it would submit two
orders for market `"m2"`, as the last conjunct shows), and the ledger
file is not persisted (it stays `absent`). -/
theorem C2_failure_isolation_counterexample :
    (place_orders_for_future_longer_timeframes envC2 .absent).attempts = [] ∧
    (place_orders_for_future_longer_timeframes envC2 .absent).aborted = true ∧
    (place_orders_for_future_longer_timeframes envC2 .absent).fileState
      = .absent ∧
    process_series envC2 ⟨[⟨"a2", some 100⟩, ⟨"b2", some 200⟩]⟩ [] =
      .ok ([⟨"m2", "t2y", 49/100, 5, true⟩, ⟨"m2", "t2n", 49/100, 5, true⟩],
           [JsonV.str "m2"]) := by
  refine ⟨?_, ?_, ?_, ?_⟩ <;>
    simp +decide [place_orders_for_future_longer_timeframes, envC2, seed_loop,
      process_series, get_future_event_from_series, future_event_pairs,
      byEndDate, List.insertionSort, List.orderedInsert, get_yes_no_tokens,
      mC2, pyStrOfOpt, List.insert, List.filterMap, load_placed_market_ids,
      pySetElems]

/-- **C2 (amended)**: Per-series failure isolation holds for
order-submission failures only: submission outcomes never influence the
abort flag of the pass or the persisted ledger (first conjunct, for an
arbitrary replacement oracle `f`), and when the series fetch, every
market fetch and every token-pair extraction succeed, the pass
completes un-aborted and persists the ledger whatever the submission
outcomes were (second conjunct).  A market-fetch or token-extraction
failure, by contrast, escapes the per-series loop: the remaining series
are not processed and the ledger is not persisted for that pass (see
the counterexample); the escaped exception is caught one level up, in
the try block of the master loop, so only the current pass — not the process —
is lost. -/
theorem C2_failure_isolation_amended (env : Env) (fs : FileState)
    (f : String → Except Unit Unit) :
    ((place_orders_for_future_longer_timeframes (env.withSubmit f) fs).aborted =
        (place_orders_for_future_longer_timeframes env fs).aborted ∧
      (place_orders_for_future_longer_timeframes (env.withSubmit f) fs).fileState =
        (place_orders_for_future_longer_timeframes env fs).fileState) ∧
    (∀ ss, env.series_list = .ok ss →
      (∀ slug, env.market_of slug ≠ .error ()) →
      (∀ slug m, env.market_of slug = .ok (some m) →
        get_yes_no_tokens m ≠ .error ()) →
      (place_orders_for_future_longer_timeframes env fs).aborted = false ∧
      (place_orders_for_future_longer_timeframes env fs).fileState =
        save_placed_market_ids
          (seed_loop env ss (load_placed_market_ids fs)).2.1) := by
  refine ⟨seed_pass_withSubmit env fs f, ?_⟩
  intro ss hss hm ht
  unfold place_orders_for_future_longer_timeframes
  rw [hss]
  simp only
  rw [seed_loop_no_abort env hm ht ss (load_placed_market_ids fs)]
  exact ⟨rfl, rfl⟩

/-- Witness for C2 (amended) in `envW`, whose fetches all succeed but
whose YES-side submission fails; the second application replaces the
oracle by one that always fails. -/
theorem C2_failure_isolation_amended_witness :
    ((place_orders_for_future_longer_timeframes
        (envW.withSubmit (fun _ => .error ())) (wellFormedLedger ["x"])).aborted =
      (place_orders_for_future_longer_timeframes envW
        (wellFormedLedger ["x"])).aborted ∧
     (place_orders_for_future_longer_timeframes
        (envW.withSubmit (fun _ => .error ())) (wellFormedLedger ["x"])).fileState =
      (place_orders_for_future_longer_timeframes envW
        (wellFormedLedger ["x"])).fileState) ∧
    ((place_orders_for_future_longer_timeframes envW
        (wellFormedLedger ["x"])).aborted = false ∧
     (place_orders_for_future_longer_timeframes envW
        (wellFormedLedger ["x"])).fileState =
       save_placed_market_ids
         (seed_loop envW [⟨[⟨"a", some 100⟩, ⟨"b", some 200⟩]⟩]
           (load_placed_market_ids (wellFormedLedger ["x"]))).2.1) :=
  ⟨(C2_failure_isolation_amended envW (wellFormedLedger ["x"])
      (fun _ => .error ())).1,
   (C2_failure_isolation_amended envW (wellFormedLedger ["x"])
      (fun _ => .error ())).2 [⟨[⟨"a", some 100⟩, ⟨"b", some 200⟩]⟩] rfl
     (by
       intro slug
       simp only [envW]
       split <;> simp)
     (by
       intro slug m h
       simp only [envW] at h
       split at h
       · obtain rfl : mW = m := by simpa using h
         simp [get_yes_no_tokens, mW]
       · simp at h)⟩

/-- **C9 counterexample**: the claim says each iteration of the master
scheduler loop triggers the settlement-claim action exactly when the
wall-clock minute after the sleep is a multiple of 15.  But the
definition of `run_every_15_minutes` that Python actually executes is
the *second* one in the file (src/main.py:1011-1034), which contains no
`redeem_all` block at all: at minute 15 — a multiple of 15 — no
settlement claim is triggered. -/
theorem C9_periodic_settlement_counterexample :
    (run_every_15_minutes_cycle envW (wellFormedLedger ["x"]) 15).2 = false ∧
    15 % 15 = 0 :=
  ⟨rfl, rfl⟩

/-- **C9 (amended)**: the effective master-loop iteration (the second,
shadowing definition of `run_every_15_minutes`) never triggers the
settlement-claim action, on any minute; the `minute % 15 == 0` trigger
exists only in the shadowed first definition (src/main.py:489-515) —
which, were it the one executed, would trigger it exactly on minutes
that are multiples of 15 (and would then crash, since `redeem_all` is
defined nowhere in the file). -/
theorem C9_periodic_settlement_amended (env : Env) (fs : FileState)
    (minute_after_sleep : ℕ) :
    (run_every_15_minutes_cycle env fs minute_after_sleep).2 = false ∧
    ((run_every_15_minutes_cycle_shadowed env fs minute_after_sleep).2 = true ↔
      minute_after_sleep % 15 = 0) := by
  refine ⟨rfl, ?_⟩
  simp [run_every_15_minutes_cycle_shadowed]

/-- The decision engine only returns `enter` inside the tradable
window; in particular never with less than 30 seconds left. -/
theorem should_enter_market_enter_not_late {b sl : ℚ} {yt nt : String}
    {yb nb : Option ℚ} {side : Side} {tok : String}
    (h : should_enter_market b sl yt nt yb nb = .enter side tok) :
    ¬ sl < 30 := by
  unfold should_enter_market at h
  by_cases h1 : sl / 60 > 4
  · rw [if_pos h1] at h
    cases h
  · rw [if_neg h1] at h
    by_cases h2 : sl < 30
    · rw [if_pos h2] at h
      cases h
    · exact h2

/-- **C10**: in the active-trading phase, when the live quote map has
no SELL entry for the side chosen by the decision engine, the entry
price silently defaults to 0.0 and a buy order for the chosen token is
still submitted at price 0.0 — a missing SELL quote does not suppress
order submission.  (The decision itself is made from BUY prices only:
`should_enter_market` does not even receive the SELL quotes.) -/
theorem C10_missing_sell_quote_defaults_to_zero (now : ℚ) (market : Market)
    (quotes : QuoteSnapshot) (submit : String → Except Unit Unit)
    (end_time : ℚ) (yes_token no_token tok : String) (side : Side)
    (hend : market.endDate = some end_time)
    (htok : get_yes_no_tokens market = .ok (yes_token, no_token))
    (hdec : should_enter_market (9/10) (end_time - now) yes_token no_token
      quotes.yes_buy quotes.no_buy = .enter side tok)
    (hsell : (if side = Side.yes then quotes.yes_sell else quotes.no_sell)
      = none) :
    trading_step now market quotes submit =
      .submit tok 0 (submit tok).isOk := by
  unfold trading_step
  rw [hend]
  dsimp only
  rw [if_neg (should_enter_market_enter_not_late hdec), htok]
  dsimp only
  rw [hdec]
  cases side with
  | yes =>
    rw [if_pos rfl] at hsell
    simp [hsell]
  | no =>
    have : ¬ (Side.no = Side.yes) := by simp
    rw [if_neg this] at hsell
    simp [hsell]

/-- Witness for C10: 120 s to expiry, YES BUY = 0.9 ≥ threshold 0.85,
so the engine says enter YES; the YES SELL quote is missing; the order
for the YES token is still submitted, at price 0. -/
theorem C10_missing_sell_quote_defaults_to_zero_witness :
    trading_step 0 mC10 qC10 (fun _ => .ok ()) = .submit "ty" 0 true :=
  C10_missing_sell_quote_defaults_to_zero 0 mC10 qC10 (fun _ => .ok ())
    120 "ty" "tn" "ty" .yes rfl rfl
    (by norm_num [should_enter_market, entry_threshold, safe_price, qC10])
    rfl

end PolymarketBot
